import Mathlib

/-!
Verification of the paddleDetection repository's callback/checkpointing layer
(`ppdet/engine/callbacks.py`) and its dataset-preparation script
(`dataset/fire/create_list.py`) against the natural-language specification.

Modelling conventions:
* Python floats are modelled as exact rationals (`ℚ`); float rounding is
  ignored, which is faithful for every property considered here.
* Python ints are modelled as `ℤ` where subtraction or modulus occurs
  (Python integer arithmetic matches `ℤ` with `Int.emod` for positive
  divisors), otherwise as `ℕ` (ranks, world sizes, step counters).
* Side effects (logger calls, `paddle.save`, `save_model`, artifact
  uploads) are modelled as explicit effect records accumulated by the
  embedded functions; a raised Python exception is modelled by an
  `Option String` error field (the effects already emitted are kept,
  mirroring the mutation semantics of the original methods).
* A model's `state_dict()` is assumed non-empty, so the `if weight:`
  truthiness test succeeds exactly when the `weight` variable was assigned.
-/

/-- First character test (kernel-reducible form of `startsWith` for one char). -/
def strHeadIs (s : String) (c : Char) : Bool :=
  s.data.head? == some c

/-- Last character test (kernel-reducible form of `endsWith` for one char). -/
def strLastIs (s : String) (c : Char) : Bool :=
  s.data.getLast? == some c

/-- Two-component path joining on a POSIX system (`os.path` join). -/
def pathJoin (a b : String) : String :=
  if strHeadIs b '/' then b
  else if a = "" then b
  else if strLastIs a '/' then a ++ b
  else a ++ "/" ++ b

/-- Python `sub in s` substring test (for non-empty `sub`). -/
def strContains (s sub : String) : Bool :=
  (s.splitOn sub).length != 1

/-- Replacement loop of Python `str.replace` on character lists: replaces
non-overlapping occurrences of `old` left to right.  The fuel argument
(instantiated with the string length) only makes the recursion structural;
for non-empty `old` it never runs out. -/
def pyReplaceGo (old new : List Char) : ℕ → List Char → List Char
  | _, [] => []
  | 0, s => s
  | fuel + 1, c :: cs =>
    if old.isPrefixOf (c :: cs) then
      new ++ pyReplaceGo old new fuel (List.drop old.length (c :: cs))
    else
      c :: pyReplaceGo old new fuel cs

/-- Python `s.replace(old, new)`.  An empty `old` interleaves `new` between
all characters, as CPython does. -/
def pyReplace (s old new : String) : String :=
  if old.data.isEmpty then
    ⟨new.data ++ (s.data.map (fun c => c :: new.data)).flatten⟩
  else
    ⟨pyReplaceGo old.data new.data s.data.length s.data⟩

/- ----------------------------------------------------------------
   dataset/fire/create_list.py
   ---------------------------------------------------------------- -/

def data_root_dir : String := "fireOrigin"

def annotate_root_dir : String := "annotations"

def image_root_dir : String := "images"

/-- One entry of `itemList`: the image path and the annotation path built
from an image file name `ip` (lines 10-14 of `create_list.py`). -/
def mkItem (ip : String) : String × String :=
  (pathJoin (pathJoin data_root_dir image_root_dir) ip,
   pathJoin (pathJoin data_root_dir annotate_root_dir) (pyReplace ip "jpg" "xml"))

/-- The text written for one item: `img + ' ' + annot + '\n'` (line 23). -/
def lineOfItem (it : String × String) : String :=
  it.1 ++ " " ++ it.2 ++ "\n"

/-- Swap two positions of a list (Python `x[i], x[j] = x[j], x[i]`);
out-of-range indices leave the list unchanged. -/
def listSwap (xs : List α) (i j : ℕ) : List α :=
  match xs.get? i, xs.get? j with
  | some a, some b => (xs.set i b).set j a
  | _, _ => xs

/-- CPython `random.shuffle` loop: `for i in reversed(range(1, len(x))):
j = randbelow(i+1); swap x[i] x[j]`.  The first argument is the current
index `i`; `rb s n` draws an integer below `n` from RNG state `s`. -/
def shuffleGo (rb : σ → ℕ → ℕ × σ) : ℕ → List α → σ → List α × σ
  | 0, xs, s => (xs, s)
  | i + 1, xs, s =>
    let js := rb s (i + 2)
    shuffleGo rb i (listSwap xs (i + 1) js.1) js.2

/-- `random.shuffle(x)`. -/
def pyShuffle (rb : σ → ℕ → ℕ × σ) (xs : List α) (s : σ) : List α × σ :=
  shuffleGo rb (xs.length - 1) xs s

/-- A deterministic implementation of the `random` module's generator:
`seedState n` is the state set by `random.seed(n)`, `entropyState e` the
state obtained from OS entropy when no seed is given, and `randbelow`
draws a bounded integer.  The concrete generator is irrelevant to the
claims; all of them hold for every implementation. -/
structure PyRandomImpl (σ : Type) where
  seedState : ℕ → σ
  entropyState : ℕ → σ
  randbelow : σ → ℕ → ℕ × σ

/-- RNG initialisation: an explicit `random.seed(a)` call ignores the OS
entropy; with no seed the state comes from OS entropy. -/
def pyRandomInit (R : PyRandomImpl σ) (osEntropy : ℕ) (seedArg : Option ℕ) : σ :=
  match seedArg with
  | some a => R.seedState a
  | none => R.entropyState osEntropy

/-- The writing loop of `create_list.py` (lines 21-28), with the running
index `i` explicit: item `i` goes to `trainval.txt` when `i < c`
(`c = ratio * len(itemList)`), otherwise to `test.txt`. -/
def writeSplitGo (c : ℚ) : ℕ → List (String × String) → List String × List String
  | _, [] => ([], [])
  | i, it :: rest =>
    let r := writeSplitGo c (i + 1) rest
    if (i : ℚ) < c then (lineOfItem it :: r.1, r.2) else (r.1, lineOfItem it :: r.2)

/-- Lines written to `trainval.txt` and `test.txt` given the (already
shuffled) `itemList`; the threshold is `ratio * len(itemList)` with
`ratio = 0.9` (lines 16, 25), written as the exact rational `9n/10`.
(The script compares the integer loop index with the float product
`0.9 * n`; for every feasible directory size the float comparison agrees
with the exact rational one, so the exact form is the faithful model.) -/
def writeSplit (items : List (String × String)) : List String × List String :=
  writeSplitGo (mkRat (9 * items.length) 10) 0 items

/-- `itemList` after `random.shuffle`, starting from the state set by
`random.seed(100)` (lines 4, 17). -/
def shuffledItems (R : PyRandomImpl σ) (osEntropy : ℕ) (listing : List String) :
    List (String × String) :=
  (pyShuffle R.randbelow (listing.map mkItem) (pyRandomInit R osEntropy (some 100))).1

/-- The whole of `create_list.py`: contents of (`trainval.txt`, `test.txt`)
as line lists, as a function of the directory listing and the OS entropy
that `random` would use were it not explicitly seeded. -/
def createListOutputs (R : PyRandomImpl σ) (osEntropy : ℕ) (listing : List String) :
    List String × List String :=
  writeSplit (shuffledItems R osEntropy listing)

/- Helper lemmas for the split loop. -/

theorem writeSplitGo_of_le (c : ℚ) :
    ∀ (items : List (String × String)) (i : ℕ), c ≤ (i : ℚ) →
      writeSplitGo c i items = ([], items.map lineOfItem) := by
  intro items
  induction items with
  | nil => intro i _; rfl
  | cons x rest ih =>
    intro i hi
    have hnot : ¬ ((i : ℚ) < c) := not_lt.mpr hi
    have hi1 : c ≤ ((i + 1 : ℕ) : ℚ) := by push_cast; linarith
    simp [writeSplitGo, hnot, ih (i + 1) hi1]

theorem writeSplitGo_fst (c : ℚ) :
    ∀ (items : List (String × String)) (i : ℕ),
      (writeSplitGo c i items).1 =
        ((List.enumFrom i items).filter (fun p => decide ((p.1 : ℚ) < c))).map
          (fun p => lineOfItem p.2) := by
  intro items
  induction items with
  | nil => intro i; rfl
  | cons x rest ih =>
    intro i
    by_cases h : (i : ℚ) < c <;>
      simp [writeSplitGo, List.enumFrom, List.filter, h, ih (i + 1)]

theorem writeSplitGo_snd (c : ℚ) :
    ∀ (items : List (String × String)) (i : ℕ),
      (writeSplitGo c i items).2 =
        ((List.enumFrom i items).filter (fun p => decide ¬ ((p.1 : ℚ) < c))).map
          (fun p => lineOfItem p.2) := by
  intro items
  induction items with
  | nil => intro i; rfl
  | cons x rest ih =>
    intro i
    by_cases h : (i : ℚ) < c <;>
      simp [writeSplitGo, List.enumFrom, List.filter, h, ih (i + 1)]

theorem writeSplitGo_append (c : ℚ) :
    ∀ (items : List (String × String)) (i : ℕ),
      (writeSplitGo c i items).1 ++ (writeSplitGo c i items).2 =
        items.map lineOfItem := by
  intro items
  induction items with
  | nil => intro i; rfl
  | cons x rest ih =>
    intro i
    by_cases h : (i : ℚ) < c
    · simp [writeSplitGo, h, ih (i + 1)]
    · have hle : c ≤ ((i + 1 : ℕ) : ℚ) := by
        push_cast
        have := not_lt.mp h
        linarith
      simp [writeSplitGo, h, writeSplitGo_of_le c rest (i + 1) hle]

/- Permutation lemmas for the shuffle. -/

theorem cons_set_perm (x : α) :
    ∀ (u : List α) (m : ℕ) (hm : m < u.length),
      (u.get ⟨m, hm⟩ :: u.set m x).Perm (x :: u) := by
  intro u
  induction u with
  | nil => intro m hm; exact absurd hm (by simp)
  | cons y t ih =>
    intro m hm
    cases m with
    | zero => simpa using List.Perm.swap x y t
    | succ k =>
      have hk : k < t.length := by simpa using hm
      exact (List.Perm.swap y _ _).trans
        ((List.Perm.cons y (ih k hk)).trans (List.Perm.swap x y t))

theorem set_set_perm' :
    ∀ (xs : List α) (i j : ℕ) (hi : i < xs.length) (hj : j < xs.length),
      ((xs.set i (xs.get ⟨j, hj⟩)).set j (xs.get ⟨i, hi⟩)).Perm xs := by
  intro xs
  induction xs with
  | nil => intro i j hi _; exact absurd hi (by simp)
  | cons x t ih =>
    intro i j hi hj
    cases i with
    | zero =>
      cases j with
      | zero => simp
      | succ m =>
        have hm : m < t.length := by simpa using hj
        simpa using cons_set_perm x t m hm
    | succ k =>
      have hk : k < t.length := by simpa using hi
      cases j with
      | zero =>
        simpa using cons_set_perm x t k hk
      | succ m =>
        have hm : m < t.length := by simpa using hj
        simpa using List.Perm.cons x (ih k m hk hm)

theorem listSwap_perm (xs : List α) (i j : ℕ) : (listSwap xs i j).Perm xs := by
  unfold listSwap
  cases hi : xs.get? i with
  | none => simp [hi]
  | some a =>
    cases hj : xs.get? j with
    | none => simp [hi, hj]
    | some b =>
      obtain ⟨hi', rfl⟩ := List.get?_eq_some.mp hi
      obtain ⟨hj', rfl⟩ := List.get?_eq_some.mp hj
      exact set_set_perm' xs i j hi' hj'

theorem shuffleGo_perm (rb : σ → ℕ → ℕ × σ) :
    ∀ (n : ℕ) (xs : List α) (s : σ), ((shuffleGo rb n xs s).1).Perm xs := by
  intro n
  induction n with
  | zero => intro xs s; exact List.Perm.refl xs
  | succ i ih =>
    intro xs s
    exact (ih _ _).trans (listSwap_perm xs (i + 1) (rb s (i + 2)).1)

theorem pyShuffle_perm (rb : σ → ℕ → ℕ × σ) (xs : List α) (s : σ) :
    ((pyShuffle rb xs s).1).Perm xs :=
  shuffleGo_perm rb (xs.length - 1) xs s

/-- A trivial RNG implementation used to instantiate witnesses. -/
def trivialRandom : PyRandomImpl ℕ :=
  { seedState := fun n => n
    entropyState := fun n => n
    randbelow := fun s _ => (0, s) }

/-- C7: every line written by `create_list.py` to `trainval.txt` or
`test.txt` is `<image path> <annotation path>\n`, the annotation path being
the image file name with `"jpg"` replaced by `"xml"`, rooted in the
annotations directory instead of the images directory. -/
theorem create_list_line_format {σ : Type} (R : PyRandomImpl σ) (osEntropy : ℕ)
    (listing : List String) (l : String)
    (hl : l ∈ (createListOutputs R osEntropy listing).1 ++
      (createListOutputs R osEntropy listing).2) :
    ∃ ip ∈ listing,
      l = pathJoin (pathJoin data_root_dir image_root_dir) ip ++ " " ++
        pathJoin (pathJoin data_root_dir annotate_root_dir) (pyReplace ip "jpg" "xml")
        ++ "\n" := by
  have hcat : (createListOutputs R osEntropy listing).1 ++
      (createListOutputs R osEntropy listing).2 =
      (shuffledItems R osEntropy listing).map lineOfItem :=
    writeSplitGo_append _ _ 0
  rw [hcat] at hl
  obtain ⟨it, hit, rfl⟩ := List.mem_map.mp hl
  have hperm : (shuffledItems R osEntropy listing).Perm (listing.map mkItem) :=
    pyShuffle_perm _ _ _
  have hit' : it ∈ listing.map mkItem := hperm.mem_iff.mp hit
  obtain ⟨ip, hip, rfl⟩ := List.mem_map.mp hit'
  exact ⟨ip, hip, rfl⟩

/-- Witness for C7 at a concrete one-element listing. -/
theorem create_list_line_format_witness :
    ∃ ip ∈ ["a.jpg"],
      "fireOrigin/images/a.jpg fireOrigin/annotations/a.xml\n" =
        pathJoin (pathJoin data_root_dir image_root_dir) ip ++ " " ++
        pathJoin (pathJoin data_root_dir annotate_root_dir) (pyReplace ip "jpg" "xml")
        ++ "\n" :=
  create_list_line_format trivialRandom 0 ["a.jpg"]
    "fireOrigin/images/a.jpg fireOrigin/annotations/a.xml\n" (by decide)

/-- C8: the item at shuffled index `i` is written to `trainval.txt` exactly
when `i < 0.9 * n` and to `test.txt` otherwise, and the two files together
hold exactly one line per listed image (a permutation of the listing's
lines: nothing dropped, nothing duplicated). -/
theorem create_list_partition {σ : Type} (R : PyRandomImpl σ) (osEntropy : ℕ)
    (listing : List String) :
    (createListOutputs R osEntropy listing).1 =
      (((shuffledItems R osEntropy listing).enum.filter
        (fun p => decide ((p.1 : ℚ) < mkRat (9 * (shuffledItems R osEntropy listing).length) 10))).map
          (fun p => lineOfItem p.2)) ∧
    (createListOutputs R osEntropy listing).2 =
      (((shuffledItems R osEntropy listing).enum.filter
        (fun p => decide ¬ ((p.1 : ℚ) < mkRat (9 * (shuffledItems R osEntropy listing).length) 10))).map
          (fun p => lineOfItem p.2)) ∧
    ((createListOutputs R osEntropy listing).1 ++
      (createListOutputs R osEntropy listing).2).Perm
        (listing.map (fun ip => lineOfItem (mkItem ip))) := by
  refine ⟨writeSplitGo_fst _ _ 0, writeSplitGo_snd _ _ 0, ?_⟩
  have hcat : (createListOutputs R osEntropy listing).1 ++
      (createListOutputs R osEntropy listing).2 =
      (shuffledItems R osEntropy listing).map lineOfItem :=
    writeSplitGo_append _ _ 0
  rw [hcat]
  have hperm : (shuffledItems R osEntropy listing).Perm (listing.map mkItem) :=
    pyShuffle_perm _ _ _
  simpa [Function.comp] using hperm.map lineOfItem

/-- C10: `create_list.py` seeds the generator with the constant 100 before
shuffling, so its outputs depend only on the directory listing and not on
the OS entropy the `random` module would otherwise consume: two runs over
the same listing are byte-identical. -/
theorem create_list_deterministic {σ : Type} (R : PyRandomImpl σ)
    (entropy₁ entropy₂ : ℕ) (listing : List String) :
    createListOutputs R entropy₁ listing = createListOutputs R entropy₂ listing := rfl

/- ----------------------------------------------------------------
   ppdet/engine/callbacks.py — shared metric-result model
   ---------------------------------------------------------------- -/

/-- A metric's `get_results()` value: either the string produced by MOT
metrics or a dictionary from result keys to lists of values. -/
inductive MapRes where
  | str (s : String)
  | dict (d : List (String × List ℚ))
deriving DecidableEq

/-- Python `key in map_res`: substring test on a string result, key test on
a dictionary result. -/
def mapResContains : MapRes → String → Bool
  | .str s, k => strContains s k
  | .dict d, k => d.any (fun p => p.1 == k)

/-- One step of decimal-digit accumulation for `float(...)`. -/
def digitsVal : List Char → ℕ → Option ℕ
  | [], acc => some acc
  | c :: cs, acc =>
    if c.isDigit then digitsVal cs (acc * 10 + (c.toNat - 48)) else none

/-- Python `float(s)` restricted to plain signed decimal literals, as an
exact rational (MOT summary fields are of this shape).  Anything else is
`none`, i.e. `ValueError`. -/
def parseFloat (s : String) : Option ℚ :=
  let t := s.trim
  let su := if strHeadIs t '-' then ((-1 : ℚ), t.drop 1)
    else if strHeadIs t '+' then ((1 : ℚ), t.drop 1) else ((1 : ℚ), t)
  match (su.2.splitOn ".").map (fun part => part.data) with
  | [a] =>
    if a.length > 0 then (digitsVal a 0).map (fun n => su.1 * n) else none
  | [a, b] =>
    if a.length + b.length > 0 then
      match digitsVal a 0, digitsVal b 0 with
      | some na, some nb => some (su.1 * (na + mkRat nb (10 ^ b.length)))
      | _, _ => none
    else none
  | _ => none

/-- The MOT branch of the checkpointer's metric handling:
`float(map_res.split(' ')[-9].rstrip("%")) / 100` (line 211).  A too-short
string raises `IndexError`; an unparsable field raises `ValueError`. -/
def motParse (s : String) : Except String ℚ :=
  let toks := s.splitOn " "
  if toks.length < 9 then .error "IndexError"
  else
    let tok := (toks.getD (toks.length - 9) "").dropRightWhile (fun c => c == '%')
    match parseFloat tok with
    | some v => .ok (v / 100)
    | none => .error "ValueError"

/-- Warning text logged when the target metric key is missing from the
evaluation results (lines 227-229 and 742-744). -/
def evalEmptyWarning : String :=
  "Evaluation results empty, this may be due to training iterations being too few or not loading the correct weights."

/- ----------------------------------------------------------------
   Checkpointer
   ---------------------------------------------------------------- -/

/-- Relevant configuration fields read by `Checkpointer`. -/
structure CkptCfg where
  epoch : ℤ
  snapshot_epoch : ℤ
  target_metrics : Option String
  save_dir : String
  uniform_output_enabled : Bool
  use_ema : Bool
deriving DecidableEq

/-- Relevant fields of the `status` dictionary for `on_epoch_end`.
`save_best_model` stands for `'save_best_model' in status and
status['save_best_model']`; `exchange_save_model` for
`status.get('exchange_save_model', False)`. -/
structure CkptStatus where
  mode : String
  epoch_id : ℤ
  save_best_model : Bool
  exchange_save_model : Bool
deriving DecidableEq

/-- Externally visible actions of one `Checkpointer.on_epoch_end` call:
logged warnings, `paddle.save` of `.pdstates` files
(path, stored metric, stored epoch), `save_model_info` and
`update_train_results` calls, `save_model` calls (directory, save name,
last epoch), inference exports, and `logger.info` count. -/
structure CkptEffects where
  warnings : List String
  pdstates : List (String × ℚ × ℤ)
  model_infos : List String
  train_updates : List String
  save_models : List (String × String × ℤ)
  exports : List String
  infos : ℕ
deriving DecidableEq

def emptyCkptEffects : CkptEffects := ⟨[], [], [], [], [], [], 0⟩

/-- Key/eval-function selection and metric extraction for one metric's
results (lines 208-233): returns `(key, eval_func, epoch_ap, warned)` or
the raised exception. -/
def ckptKeyAp (target : Option String) (m : MapRes) : Except String (String × String × ℚ × Bool) :=
  if mapResContains m "MOTA" then
    match m with
    | .dict _ => .error "AttributeError"
    | .str s => (motParse s).map (fun v => ("mot", "mota", v, false))
  else
    let ef := if mapResContains m "pose3d" then "mpjpe" else "ap"
    let key := target.getD (if mapResContains m "pose3d" then "pose3d"
      else if mapResContains m "bbox" then "bbox"
      else if mapResContains m "keypoint" then "keypoint"
      else "mask")
    if mapResContains m key then
      match m with
      | .str _ => .error "TypeError"
      | .dict d =>
        match (d.find? (fun p => p.1 == key)).map Prod.snd with
        | some (v :: _) => .ok (key, ef, v, false)
        | some [] => .error "IndexError"
        | none => .error "KeyError"
    else
      .ok ("", ef, 0, true)

/-- `paddle.save` target for a `.pdstates` file (lines 238, 252):
`os.path.join(os.path.join(save_dir, save_name) if uniform_output_enabled
else save_dir, fname)`. -/
def ckptStatesPath (uniform : Bool) (saveDir saveName fname : String) : String :=
  pathJoin (if uniform then pathJoin saveDir saveName else saveDir) fname

/-- Loop state of the `for metric in self.model._metrics` loop in `'eval'`
mode: current `best_ap`, current `save_name`, whether `weight` has been
assigned, effects so far, and a pending exception. -/
structure CkptLoop where
  best_ap : ℚ
  save_name : String
  weight : Bool
  eff : CkptEffects
  error : Option String
deriving DecidableEq

/-- Body of the metrics loop for one metric (lines 206-258). -/
def ckptEvalMetric (cfg : CkptCfg) (st : CkptStatus) (L : CkptLoop) (m : MapRes) : CkptLoop :=
  if L.error.isSome then L else
  match ckptKeyAp cfg.target_metrics m with
  | .error e => { L with error := some e }
  | .ok (_key, _ef, ap, warned) =>
    let eff1 := if warned then
        { L.eff with warnings := L.eff.warnings ++ [evalEmptyWarning] } else L.eff
    let eff2 := { eff1 with pdstates := eff1.pdstates ++
      [(ckptStatesPath cfg.uniform_output_enabled cfg.save_dir L.save_name
          (L.save_name ++ ".pdstates"), |ap|, st.epoch_id + 1)] }
    let eff3 := if cfg.uniform_output_enabled then
        { eff2 with model_infos := eff2.model_infos ++ [L.save_name],
                    train_updates := eff2.train_updates ++ [L.save_name] } else eff2
    if st.save_best_model then
      if ap ≥ L.best_ap then
        let eff4 := { eff3 with pdstates := eff3.pdstates ++
          [(ckptStatesPath cfg.uniform_output_enabled cfg.save_dir "best_model"
              "best_model.pdstates", |ap|, st.epoch_id + 1)] }
        let eff5 := if cfg.uniform_output_enabled then
            { eff4 with model_infos := eff4.model_infos ++ ["best_model"],
                        train_updates := eff4.train_updates ++ ["best_model"] } else eff4
        { best_ap := ap, save_name := "best_model", weight := true,
          eff := { eff5 with infos := eff5.infos + 1 }, error := none }
      else
        { L with eff := { eff3 with infos := eff3.infos + 1 } }
    else
      { L with eff := eff3 }

/-- The `if weight:` block (lines 259-295): the `save_model` call and, with
uniform output, the inference export.  All branches use the same save name
and last epoch `epoch_id + 1`; only the target directory differs. -/
def ckptSaveWeight (cfg : CkptCfg) (st : CkptStatus) (saveName : String)
    (eff : CkptEffects) : CkptEffects :=
  if cfg.use_ema then
    if ¬ st.exchange_save_model then
      let e1 := { eff with save_models := eff.save_models ++
        [(if cfg.uniform_output_enabled then pathJoin cfg.save_dir saveName
          else cfg.save_dir, saveName, st.epoch_id + 1)] }
      if cfg.uniform_output_enabled then
        { e1 with exports := e1.exports ++
          [pathJoin (pathJoin cfg.save_dir saveName) "inference"] }
      else e1
    else
      { eff with save_models := eff.save_models ++
        [(cfg.save_dir, saveName, st.epoch_id + 1)] }
  else
    let e1 := { eff with save_models := eff.save_models ++
      [(if cfg.uniform_output_enabled then pathJoin cfg.save_dir saveName
        else cfg.save_dir, saveName, st.epoch_id + 1)] }
    if cfg.uniform_output_enabled then
      { e1 with exports := e1.exports ++
        [pathJoin (pathJoin cfg.save_dir saveName) "inference"] }
    else e1

/-- Result of one `Checkpointer.on_epoch_end` call: the retained `best_ap`,
the effects performed, and a raised exception if any. -/
structure CkptResult where
  best_ap : ℚ
  effects : CkptEffects
  error : Option String
deriving DecidableEq

/-- `Checkpointer.on_epoch_end` (lines 188-295). -/
def checkpointerOnEpochEnd (cfg : CkptCfg) (ws rank : ℕ) (best : ℚ)
    (metrics : List MapRes) (st : CkptStatus) : CkptResult :=
  if ws < 2 ∨ rank = 0 then
    let saveName0 : String :=
      if st.epoch_id ≠ cfg.epoch - 1 then toString st.epoch_id else "model_final"
    if st.mode == "train" then
      if (st.epoch_id + 1) % cfg.snapshot_epoch == 0 ∨ st.epoch_id = cfg.epoch - 1 then
        ⟨best, ckptSaveWeight cfg st saveName0 emptyCkptEffects, none⟩
      else ⟨best, emptyCkptEffects, none⟩
    else if st.mode == "eval" then
      let L := metrics.foldl (ckptEvalMetric cfg st)
        ⟨best, saveName0, false, emptyCkptEffects, none⟩
      match L.error with
      | some e => ⟨L.best_ap, L.eff, some e⟩
      | none =>
        if L.weight then ⟨L.best_ap, ckptSaveWeight cfg st L.save_name L.eff, none⟩
        else ⟨L.best_ap, L.eff, none⟩
    else ⟨best, emptyCkptEffects, none⟩
  else ⟨best, emptyCkptEffects, none⟩

/-- One `on_epoch_end` call's inputs, for reasoning about call sequences. -/
structure CkptCall where
  cfg : CkptCfg
  ws : ℕ
  rank : ℕ
  metrics : List MapRes
  st : CkptStatus
deriving DecidableEq

/-- `best_ap` after a sequence of `Checkpointer.on_epoch_end` calls. -/
def ckptBestRun (calls : List CkptCall) (b : ℚ) : ℚ :=
  calls.foldl (fun acc c => (checkpointerOnEpochEnd c.cfg c.ws c.rank acc c.metrics c.st).best_ap) b

/- ----------------------------------------------------------------
   SemiCheckpointer
   ---------------------------------------------------------------- -/

/-- The wrapped model as seen by `SemiCheckpointer.__init__`: `student` and
`teacher` attributes that may or may not be present. -/
structure SemiModel (α : Type) where
  student : Option α
  teacher : Option α

/-- `SemiCheckpointer.__init__` attribute handling (lines 686-695): with
both sub-models present, `self.weight` becomes the pair
`(teacher, student)`; otherwise an `AttributeError` is raised. -/
def semiCheckpointerInitWeight {α : Type} (m : SemiModel α) : Except String (α × α) :=
  if h : m.student.isSome ∧ m.teacher.isSome then
    .ok (m.teacher.get h.2, m.student.get h.1)
  else if m.student.isSome || m.teacher.isSome then
    .error "AttributeError: model has no attribute student or teacher"
  else
    .error "AttributeError: model has no attribute student and teacher"

/-- `SemiCheckpointer.every_n_iters` (lines 697-698). -/
def every_n_iters (iterId n : ℤ) : Bool :=
  if n > 0 then (iterId + 1) % n == 0 else false

/-- Relevant fields of the `status` dictionary for the semi-supervised
checkpointer hooks. -/
structure SemiStatus where
  mode : String
  eval_interval : ℤ
  save_interval : ℤ
  iter_id : ℤ
  epoch_id : ℤ
  save_best_model : Bool
deriving DecidableEq

/-- Externally visible actions of a `SemiCheckpointer` hook: warnings,
`logger.info` count, and `save_semi_model` calls
(directory, save name, epoch, iteration). -/
structure SemiEffects where
  warnings : List String
  infos : ℕ
  save_semi : List (String × String × ℤ × ℤ)
deriving DecidableEq

/-- Loop state of the metrics loop in `SemiCheckpointer.on_epoch_end`:
`save_name` starts as `None`; `tw`/`sw` record whether the teacher/student
`state_dict` variables were assigned; `earlyRet` records the `return`
taken on empty results. -/
structure SemiLoop where
  best_ap : ℚ
  save_name : Option String
  tw : Bool
  sw : Bool
  eff : SemiEffects
  error : Option String
  earlyRet : Bool
deriving DecidableEq

/-- Key selection of `SemiCheckpointer.on_epoch_end` (lines 735-740). -/
def semiDefaultKey (m : MapRes) : String :=
  if mapResContains m "bbox" then "bbox"
  else if mapResContains m "keypoint" then "keypoint"
  else "mask"

/-- Body of the metrics loop in `SemiCheckpointer.on_epoch_end`
(lines 733-752). -/
def semiEvalMetric (L : SemiLoop) (m : MapRes) : SemiLoop :=
  if L.error.isSome || L.earlyRet then L else
  let key := semiDefaultKey m
  if ¬ mapResContains m key then
    { L with eff := { L.eff with warnings := L.eff.warnings ++ [evalEmptyWarning] },
             earlyRet := true }
  else
    match m with
    | .str _ => { L with error := some "TypeError" }
    | .dict d =>
      match (d.find? (fun p => p.1 == key)).map Prod.snd with
      | some (v :: _) =>
        if v > L.best_ap then
          { L with best_ap := v, save_name := some "best_model", tw := true, sw := true,
                   eff := { L.eff with infos := L.eff.infos + 1 } }
        else
          { L with eff := { L.eff with infos := L.eff.infos + 1 } }
      | some [] => { L with error := some "IndexError" }
      | none => { L with error := some "KeyError" }

/-- Result of one `SemiCheckpointer.on_epoch_end` call. -/
structure SemiResult where
  best_ap : ℚ
  eff : SemiEffects
  error : Option String
deriving DecidableEq

/-- `SemiCheckpointer.on_epoch_end` (lines 720-756); `saveDir` is the
`os.path.join(cfg.save_dir, cfg.filename)` computed in `__init__`. -/
def semiCkptOnEpochEnd (ws rank : ℕ) (saveDir : String) (best : ℚ)
    (metrics : List MapRes) (st : SemiStatus) : SemiResult :=
  if ws < 2 ∨ rank = 0 then
    if every_n_iters st.iter_id st.eval_interval && (st.mode == "eval") then
      if st.save_best_model then
        let L := metrics.foldl semiEvalMetric ⟨best, none, false, false, ⟨[], 0, []⟩, none, false⟩
        match L.error with
        | some e => ⟨L.best_ap, L.eff, some e⟩
        | none =>
          if L.earlyRet then ⟨L.best_ap, L.eff, none⟩
          else if L.tw && L.sw then
            ⟨L.best_ap, { L.eff with save_semi := L.eff.save_semi ++
              [(saveDir, L.save_name.getD "", st.epoch_id + 1, st.iter_id + 1)] }, none⟩
          else ⟨L.best_ap, L.eff, none⟩
      else ⟨best, ⟨[], 0, []⟩, none⟩
    else ⟨best, ⟨[], 0, []⟩, none⟩
  else ⟨best, ⟨[], 0, []⟩, none⟩

/-- `SemiCheckpointer.on_step_end` (lines 700-718): the `save_semi_model`
calls it performs. -/
def semiCkptOnStepEnd (ws rank : ℕ) (saveDir : String) (st : SemiStatus) :
    List (String × String × ℤ × ℤ) :=
  if ws < 2 ∨ rank = 0 then
    if every_n_iters st.iter_id st.save_interval && (st.mode == "train") then
      [(saveDir, "last_epoch", st.epoch_id + 1, st.iter_id + 1)]
    else []
  else []

/-- One `SemiCheckpointer.on_epoch_end` call's inputs. -/
structure SemiCall where
  ws : ℕ
  rank : ℕ
  saveDir : String
  metrics : List MapRes
  st : SemiStatus
deriving DecidableEq

/-- `best_ap` after a sequence of `SemiCheckpointer.on_epoch_end` calls. -/
def semiBestRun (calls : List SemiCall) (b : ℚ) : ℚ :=
  calls.foldl (fun acc c => (semiCkptOnEpochEnd c.ws c.rank c.saveDir acc c.metrics c.st).best_ap) b

/- ----------------------------------------------------------------
   LogPrinter / SemiLogPrinter
   ---------------------------------------------------------------- -/

/-- Number of `logger.info` emissions of `LogPrinter.on_step_end`
(lines 108-165).  The guard admits any rank listed in the configured
`log_ranks` (parsed in `Callback.__init__`, default `[0]`). -/
def logPrinterOnStepEnd (ws rank : ℕ) (logRanks : List ℕ) (mode : String)
    (stepId logIter : ℕ) : ℕ :=
  if ws < 2 ∨ rank ∈ logRanks then
    (if mode == "train" then (if stepId % logIter = 0 then 1 else 0) else 0) +
    (if mode == "eval" then (if stepId % 100 = 0 then 1 else 0) else 0)
  else 0

/-- Number of `logger.info` emissions of `LogPrinter.on_epoch_end`
(lines 167-174); this hook is guarded by `rank == 0`. -/
def logPrinterOnEpochEnd (ws rank : ℕ) (mode : String) : ℕ :=
  if ws < 2 ∨ rank = 0 then
    if mode == "eval" then 1 else 0
  else 0

/- ----------------------------------------------------------------
   VisualDLWriter
   ---------------------------------------------------------------- -/

/-- The four counters a `VisualDLWriter` instance retains (lines 327-330). -/
structure VDLState where
  vdl_loss_step : ℕ
  vdl_mAP_step : ℕ
  vdl_image_step : ℕ
  vdl_image_frame : ℕ
deriving DecidableEq

def vdlInit : VDLState := ⟨0, 0, 0, 0⟩

/-- Inputs of one `VisualDLWriter.on_step_end` call; `lossCount` is the
number of entries of `training_staus.get()`. -/
structure VDLStepIn where
  ws : ℕ
  rank : ℕ
  mode : String
  lossCount : ℕ
deriving DecidableEq

/-- `VisualDLWriter.on_step_end` (lines 332-354): new counter state and the
number of `add_scalar`/`add_image` writer calls. -/
def visualDLOnStepEnd (inp : VDLStepIn) (s : VDLState) : VDLState × ℕ :=
  if inp.ws < 2 ∨ inp.rank = 0 then
    if inp.mode == "train" then
      ({ s with vdl_loss_step := s.vdl_loss_step + 1 }, inp.lossCount)
    else if inp.mode == "test" then
      let step1 := s.vdl_image_step + 1
      if step1 % 10 = 0 then
        ({ s with vdl_image_step := 0, vdl_image_frame := s.vdl_image_frame + 1 }, 2)
      else
        ({ s with vdl_image_step := step1 }, 2)
    else (s, 0)
  else (s, 0)

/-- Counter state after a sequence of `on_step_end` calls starting from a
fresh writer. -/
def vdlRun (calls : List VDLStepIn) : VDLState :=
  calls.foldl (fun s inp => (visualDLOnStepEnd inp s).1) vdlInit

/-- Per-metric body of the `'eval'` branch of `VisualDLWriter.on_epoch_end`
(lines 360-371): accumulates `add_scalar` calls or the raised exception. -/
def vdlEvalMetric (acc : ℕ × Option String) (m : MapRes) : ℕ × Option String :=
  if acc.2.isSome then acc else
  match m with
  | .str s =>
    if strContains s "MOTA" then
      match motParse s with
      | .ok _ => (acc.1 + 1, none)
      | .error e => (acc.1, some e)
    else (acc.1, some "AttributeError")
  | .dict d =>
    if mapResContains (.dict d) "MOTA" then (acc.1, some "AttributeError")
    else (acc.1 + d.length, none)

/-- `VisualDLWriter.on_epoch_end` (lines 356-372): number of `add_scalar`
calls, updated `vdl_mAP_step`, and a raised exception if any. -/
def visualDLOnEpochEnd (ws rank : ℕ) (mode : String) (metrics : List MapRes)
    (mAPStep : ℕ) : ℕ × ℕ × Option String :=
  if ws < 2 ∨ rank = 0 then
    if mode == "eval" then
      let r := metrics.foldl vdlEvalMetric (0, none)
      match r.2 with
      | some e => (r.1, mAPStep, some e)
      | none => (r.1, mAPStep + 1, none)
    else (0, mAPStep, none)
  else (0, mAPStep, none)

/- ----------------------------------------------------------------
   WandbCallback
   ---------------------------------------------------------------- -/

/-- Number of `run.log` emissions of `WandbCallback.on_step_end`
(lines 460-486). -/
def wandbOnStepEnd (ws rank : ℕ) (mode : String) : ℕ :=
  if ws < 2 ∨ rank = 0 then
    if mode == "train" then 1 else 0
  else 0

/-- Outcome of one `WandbCallback.on_epoch_end` call: `run.log` calls,
artifact-writing `save_model` calls, warnings, retained `best_ap`, and a
raised exception if any. -/
structure WandbEpochOut where
  logs : ℕ
  artifacts : ℕ
  warnings : ℕ
  best_ap : ℚ
  error : Option String
deriving DecidableEq

/-- The merged-dictionary loop of the `'eval'` branch (lines 518-523):
`metric.get_results().items()` raises on a string result; `map_value[0]`
raises on an empty value list. -/
def wandbMergeMetric (acc : Option String) (m : MapRes) : Option String :=
  if acc.isSome then acc else
  match m with
  | .str _ => some "AttributeError"
  | .dict d => if d.any (fun p => p.2.isEmpty) then some "IndexError" else none

/-- Key selection of `WandbCallback.on_epoch_end` (lines 530-537). -/
def wandbDefaultKey (m : MapRes) : String :=
  if mapResContains m "pose3d" then "pose3d"
  else if mapResContains m "bbox" then "bbox"
  else if mapResContains m "keypoint" then "keypoint"
  else "mask"

/-- Loop state of the best-model loop (lines 527-556). -/
structure WandbBestLoop where
  best : ℚ
  warnings : ℕ
  artifacts : ℕ
  earlyRet : Bool
  error : Option String
deriving DecidableEq

/-- Body of the best-model loop for one metric (lines 528-556); wandb's
checkpointer updates on `>=` and returns early on missing keys. -/
def wandbBestMetric (L : WandbBestLoop) (m : MapRes) : WandbBestLoop :=
  if L.earlyRet || L.error.isSome then L else
  let key := wandbDefaultKey m
  if ¬ mapResContains m key then
    { L with warnings := L.warnings + 1, earlyRet := true }
  else
    match m with
    | .str _ => { L with error := some "TypeError" }
    | .dict d =>
      match (d.find? (fun p => p.1 == key)).map Prod.snd with
      | some (v :: _) =>
        if v ≥ L.best then { L with best := v, artifacts := L.artifacts + 1 } else L
      | some [] => { L with error := some "IndexError" }
      | none => { L with error := some "KeyError" }

/-- `WandbCallback.on_epoch_end` (lines 488-556).  `fpsLen` is
`len(self.fps)`; an empty fps list makes the train branch divide by zero. -/
def wandbOnEpochEnd (ws rank : ℕ) (epoch snap : ℤ) (mode : String) (epochId : ℤ)
    (fpsLen : ℕ) (saveBestModel : Bool) (metrics : List MapRes) (best : ℚ) :
    WandbEpochOut :=
  if ws < 2 ∨ rank = 0 then
    if mode == "train" then
      if fpsLen = 0 then ⟨0, 0, 0, best, some "ZeroDivisionError"⟩
      else if (epochId + 1) % snap == 0 ∨ epochId = epoch - 1 then
        ⟨0, 1, 0, best, none⟩
      else ⟨0, 0, 0, best, none⟩
    else if mode == "eval" then
      match metrics.foldl wandbMergeMetric none with
      | some e => ⟨0, 0, 0, best, some e⟩
      | none =>
        if saveBestModel then
          let L := metrics.foldl wandbBestMetric ⟨best, 0, 0, false, none⟩
          ⟨1, L.artifacts, L.warnings, L.best, L.error⟩
        else ⟨1, 0, 0, best, none⟩
    else ⟨0, 0, 0, best, none⟩
  else ⟨0, 0, 0, best, none⟩

/- ----------------------------------------------------------------
   ComposeCallback
   ---------------------------------------------------------------- -/

/-- The dispatch loop shared by all six `ComposeCallback` hooks
(lines 79-101): run each stored callback's hook on `status` in list order;
a raised exception aborts the loop.  Returns the indices of the callbacks
that were invoked and the propagated exception, if any.  A hook is a
function from the status to `Except ε Unit` (normal return or raise). -/
def composeRunAux {StatusT ε : Type} (s : StatusT) :
    ℕ → List (StatusT → Except ε Unit) → List ℕ × Option ε
  | _, [] => ([], none)
  | i, h :: t =>
    match h s with
    | .ok _ =>
      let r := composeRunAux s (i + 1) t
      (i :: r.1, r.2)
    | .error e => ([i], some e)

/-- One `ComposeCallback` hook applied to the stored callback list. -/
def composeHook {StatusT ε : Type} (hooks : List (StatusT → Except ε Unit)) (s : StatusT) :
    List ℕ × Option ε :=
  composeRunAux s 0 hooks


/- ----------------------------------------------------------------
   Helper lemmas: best_ap monotonicity
   ---------------------------------------------------------------- -/

theorem ckptEvalMetric_best_eq (cfg : CkptCfg) (st : CkptStatus) (L : CkptLoop)
    (m : MapRes) :
    (ckptEvalMetric cfg st L m).best_ap =
      if L.error.isSome then L.best_ap
      else
        match ckptKeyAp cfg.target_metrics m with
        | .error _ => L.best_ap
        | .ok (_, _, ap, _) =>
          if st.save_best_model then (if ap ≥ L.best_ap then ap else L.best_ap)
          else L.best_ap := by
  unfold ckptEvalMetric
  by_cases hE : L.error.isSome
  · simp [hE]
  · simp only [hE, Bool.false_eq_true, if_false]
    cases hK : ckptKeyAp cfg.target_metrics m with
    | error e => simp
    | ok r =>
      obtain ⟨k, ef, ap, w⟩ := r
      by_cases hS : st.save_best_model <;> by_cases hA : ap ≥ L.best_ap <;>
        simp [hS, hA]

theorem ckptEvalMetric_best_le (cfg : CkptCfg) (st : CkptStatus) (L : CkptLoop)
    (m : MapRes) : L.best_ap ≤ (ckptEvalMetric cfg st L m).best_ap := by
  rw [ckptEvalMetric_best_eq]
  split
  · exact le_refl _
  split
  · exact le_refl _
  rename_i r k ef ap w heq
  split
  · split
    · assumption
    · exact le_refl _
  · exact le_refl _

theorem ckptFoldl_best_le (cfg : CkptCfg) (st : CkptStatus) :
    ∀ (ms : List MapRes) (L : CkptLoop),
      L.best_ap ≤ (ms.foldl (ckptEvalMetric cfg st) L).best_ap := by
  intro ms
  induction ms with
  | nil => intro L; exact le_refl _
  | cons m t ih =>
    intro L
    exact le_trans (ckptEvalMetric_best_le cfg st L m) (ih _)

theorem checkpointerOnEpochEnd_best_le (cfg : CkptCfg) (ws rank : ℕ) (b : ℚ)
    (metrics : List MapRes) (st : CkptStatus) :
    b ≤ (checkpointerOnEpochEnd cfg ws rank b metrics st).best_ap := by
  unfold checkpointerOnEpochEnd
  split
  · dsimp only
    repeat' split
    all_goals first
      | exact le_refl _
      | exact ckptFoldl_best_le cfg st metrics _
  · exact le_refl _

theorem semiEvalMetric_best_eq (L : SemiLoop) (m : MapRes) :
    (semiEvalMetric L m).best_ap =
      if L.error.isSome || L.earlyRet then L.best_ap
      else if ¬ mapResContains m (semiDefaultKey m) then L.best_ap
      else
        match m with
        | .str _ => L.best_ap
        | .dict d =>
          match (d.find? (fun p => p.1 == semiDefaultKey m)).map Prod.snd with
          | some (v :: _) => if v > L.best_ap then v else L.best_ap
          | _ => L.best_ap := by
  unfold semiEvalMetric
  by_cases hE : (L.error.isSome || L.earlyRet) = true
  · simp [hE]
  · simp only [hE, Bool.false_eq_true, if_false]
    by_cases hk : mapResContains m (semiDefaultKey m)
    · simp only [hk, not_true, if_false]
      cases m with
      | str s => simp
      | dict d =>
        cases hf : (d.find? (fun p => p.1 == semiDefaultKey (MapRes.dict d))).map Prod.snd with
        | none => simp [hf]
        | some vs =>
          cases vs with
          | nil => simp [hf]
          | cons v t =>
            by_cases hv : v > L.best_ap <;> simp [hf, hv]
    · simp [hk]

theorem semiEvalMetric_best_le (L : SemiLoop) (m : MapRes) :
    L.best_ap ≤ (semiEvalMetric L m).best_ap := by
  rw [semiEvalMetric_best_eq]
  repeat' split
  all_goals first
    | exact le_refl _
    | exact le_of_lt (by assumption)

theorem semiFoldl_best_le :
    ∀ (ms : List MapRes) (L : SemiLoop),
      L.best_ap ≤ (ms.foldl semiEvalMetric L).best_ap := by
  intro ms
  induction ms with
  | nil => intro L; exact le_refl _
  | cons m t ih =>
    intro L
    exact le_trans (semiEvalMetric_best_le L m) (ih _)

theorem semiCkptOnEpochEnd_best_le (ws rank : ℕ) (saveDir : String) (b : ℚ)
    (metrics : List MapRes) (st : SemiStatus) :
    b ≤ (semiCkptOnEpochEnd ws rank saveDir b metrics st).best_ap := by
  unfold semiCkptOnEpochEnd
  split
  · dsimp only
    repeat' split
    all_goals first
      | exact le_refl _
      | exact semiFoldl_best_le metrics _
  · exact le_refl _

theorem ckptBestRun_le : ∀ (calls : List CkptCall) (b : ℚ), b ≤ ckptBestRun calls b := by
  intro calls
  induction calls with
  | nil => intro b; exact le_refl _
  | cons c t ih =>
    intro b
    exact le_trans (checkpointerOnEpochEnd_best_le c.cfg c.ws c.rank b c.metrics c.st) (ih _)

theorem semiBestRun_le : ∀ (calls : List SemiCall) (b : ℚ), b ≤ semiBestRun calls b := by
  intro calls
  induction calls with
  | nil => intro b; exact le_refl _
  | cons c t ih =>
    intro b
    exact le_trans (semiCkptOnEpochEnd_best_le c.ws c.rank c.saveDir b c.metrics c.st) (ih _)

/-- C1: for both `Checkpointer` and `SemiCheckpointer`, the retained
`best_ap` never decreases across any sequence of `on_epoch_end` calls, and
the per-metric update inside an `'eval'`-mode call with `save_best_model`
set changes `best_ap` only when the epoch's metric value strictly exceeds
the previous `best_ap`, in which case `best_ap` becomes exactly that
value. -/
theorem best_ap_monotone_update :
    (∀ (calls : List CkptCall) (b : ℚ), b ≤ ckptBestRun calls b) ∧
    (∀ (cfg : CkptCfg) (st : CkptStatus) (L : CkptLoop) (m : MapRes),
      (ckptEvalMetric cfg st L m).best_ap ≠ L.best_ap →
        ∃ k ef a w, ckptKeyAp cfg.target_metrics m = .ok (k, ef, a, w) ∧
          L.best_ap < a ∧ (ckptEvalMetric cfg st L m).best_ap = a) ∧
    (∀ (calls : List SemiCall) (b : ℚ), b ≤ semiBestRun calls b) ∧
    (∀ (L : SemiLoop) (m : MapRes),
      (semiEvalMetric L m).best_ap ≠ L.best_ap →
        ∃ d v vs, m = MapRes.dict d ∧
          ((d.find? (fun p => p.1 == semiDefaultKey m)).map Prod.snd) = some (v :: vs) ∧
          L.best_ap < v ∧ (semiEvalMetric L m).best_ap = v) := by
  refine ⟨ckptBestRun_le, ?_, semiBestRun_le, ?_⟩
  · intro cfg st L m hne
    rw [ckptEvalMetric_best_eq] at hne ⊢
    revert hne
    split
    · intro hne; exact absurd rfl hne
    split
    · intro hne; exact absurd rfl hne
    rename_i r hr k ef a w heq
    split
    · split
      · rename_i hS hA
        intro hne
        refine ⟨k, ef, a, w, heq, ?_, rfl⟩
        rcases lt_or_eq_of_le hA with h | h
        · exact h
        · exact absurd h.symm hne
      · intro hne; exact absurd rfl hne
    · intro hne; exact absurd rfl hne
  · intro L m hne
    rw [semiEvalMetric_best_eq] at hne ⊢
    revert hne
    split
    · intro hne; exact absurd rfl hne
    split
    · intro hne; exact absurd rfl hne
    split
    · intro hne; exact absurd rfl hne
    rename_i heq2
    split
    · rename_i d hfind v t hf
      split
      · rename_i hv
        intro _
        exact ⟨d, v, t, rfl, hf, hv, rfl⟩
      · intro hne; exact absurd rfl hne
    · intro hne; exact absurd rfl hne

/-- Witness for C1: with `best_ap = 0` and a `bbox` metric of value 1, the
update fires and yields exactly the metric value. -/
theorem best_ap_monotone_update_witness :
    ∃ k ef a w,
      ckptKeyAp (none : Option String) (MapRes.dict [("bbox", [1])]) = .ok (k, ef, a, w) ∧
      (0 : ℚ) < a ∧
      (ckptEvalMetric ⟨1, 1, none, "output", false, false⟩ ⟨"eval", 0, true, false⟩
        ⟨0, "model_final", false, emptyCkptEffects, none⟩
        (MapRes.dict [("bbox", [1])])).best_ap = a :=
  best_ap_monotone_update.2.1 ⟨1, 1, none, "output", false, false⟩ ⟨"eval", 0, true, false⟩
    ⟨0, "model_final", false, emptyCkptEffects, none⟩ (MapRes.dict [("bbox", [1])])
    (by decide)

/-- Counterexample to C2 as stated: with world size 2, process rank 1 (not
rank 0) and the valid configuration `log_ranks = "1"`, the
`LogPrinter.on_step_end` hook does emit a log line (its guard is
`rank in log_ranks`, not `rank == 0`). -/
theorem rank_zero_guard_counterexample :
    2 ≤ 2 ∧ (1 : ℕ) ≠ 0 ∧ logPrinterOnStepEnd 2 1 [1] "eval" 0 1 = 1 := by decide

/-- C2 (amended): when the world size is at least 2 and the rank is not 0,
every `on_step_end`/`on_epoch_end` hook of `LogPrinter`, `Checkpointer`,
`VisualDLWriter`, `WandbCallback` and `SemiCheckpointer` performs no log
emission and no checkpoint/artifact write — except `LogPrinter.on_step_end`,
whose guard admits any rank in the configured `log_ranks` list (default
`[0]`): it emits nothing exactly when the rank is outside `log_ranks`. -/
theorem rank_zero_guard :
    (∀ (ws rank : ℕ) (logRanks : List ℕ) (mode : String) (stepId logIter : ℕ),
      2 ≤ ws → rank ∉ logRanks →
      logPrinterOnStepEnd ws rank logRanks mode stepId logIter = 0) ∧
    (∀ (ws rank : ℕ) (mode : String), 2 ≤ ws → rank ≠ 0 →
      logPrinterOnEpochEnd ws rank mode = 0) ∧
    (∀ (cfg : CkptCfg) (ws rank : ℕ) (b : ℚ) (metrics : List MapRes) (st : CkptStatus),
      2 ≤ ws → rank ≠ 0 →
      checkpointerOnEpochEnd cfg ws rank b metrics st = ⟨b, emptyCkptEffects, none⟩) ∧
    (∀ (inp : VDLStepIn) (s : VDLState), 2 ≤ inp.ws → inp.rank ≠ 0 →
      visualDLOnStepEnd inp s = (s, 0)) ∧
    (∀ (ws rank : ℕ) (mode : String) (metrics : List MapRes) (mAPStep : ℕ),
      2 ≤ ws → rank ≠ 0 →
      visualDLOnEpochEnd ws rank mode metrics mAPStep = (0, mAPStep, none)) ∧
    (∀ (ws rank : ℕ) (mode : String), 2 ≤ ws → rank ≠ 0 →
      wandbOnStepEnd ws rank mode = 0) ∧
    (∀ (ws rank : ℕ) (epoch snap : ℤ) (mode : String) (epochId : ℤ) (fpsLen : ℕ)
      (sbm : Bool) (metrics : List MapRes) (b : ℚ), 2 ≤ ws → rank ≠ 0 →
      wandbOnEpochEnd ws rank epoch snap mode epochId fpsLen sbm metrics b =
        ⟨0, 0, 0, b, none⟩) ∧
    (∀ (ws rank : ℕ) (saveDir : String) (st : SemiStatus), 2 ≤ ws → rank ≠ 0 →
      semiCkptOnStepEnd ws rank saveDir st = []) ∧
    (∀ (ws rank : ℕ) (saveDir : String) (b : ℚ) (metrics : List MapRes) (st : SemiStatus),
      2 ≤ ws → rank ≠ 0 →
      semiCkptOnEpochEnd ws rank saveDir b metrics st = ⟨b, ⟨[], 0, []⟩, none⟩) := by
  refine ⟨?_, ?_, ?_, ?_, ?_, ?_, ?_, ?_, ?_⟩
  · intro ws rank logRanks mode stepId logIter hws hmem
    have hg : ¬ (ws < 2 ∨ rank ∈ logRanks) := by
      push_neg
      exact ⟨by omega, hmem⟩
    simp [logPrinterOnStepEnd, hg]
  · intro ws rank mode hws hrank
    have hg : ¬ (ws < 2 ∨ rank = 0) := by push_neg; exact ⟨by omega, hrank⟩
    simp [logPrinterOnEpochEnd, hg]
  · intro cfg ws rank b metrics st hws hrank
    have hg : ¬ (ws < 2 ∨ rank = 0) := by push_neg; exact ⟨by omega, hrank⟩
    simp [checkpointerOnEpochEnd, hg]
  · intro inp s hws hrank
    have hg : ¬ (inp.ws < 2 ∨ inp.rank = 0) := by push_neg; exact ⟨by omega, hrank⟩
    simp [visualDLOnStepEnd, hg]
  · intro ws rank mode metrics mAPStep hws hrank
    have hg : ¬ (ws < 2 ∨ rank = 0) := by push_neg; exact ⟨by omega, hrank⟩
    simp [visualDLOnEpochEnd, hg]
  · intro ws rank mode hws hrank
    have hg : ¬ (ws < 2 ∨ rank = 0) := by push_neg; exact ⟨by omega, hrank⟩
    simp [wandbOnStepEnd, hg]
  · intro ws rank epoch snap mode epochId fpsLen sbm metrics b hws hrank
    have hg : ¬ (ws < 2 ∨ rank = 0) := by push_neg; exact ⟨by omega, hrank⟩
    simp [wandbOnEpochEnd, hg]
  · intro ws rank saveDir st hws hrank
    have hg : ¬ (ws < 2 ∨ rank = 0) := by push_neg; exact ⟨by omega, hrank⟩
    simp [semiCkptOnStepEnd, hg]
  · intro ws rank saveDir b metrics st hws hrank
    have hg : ¬ (ws < 2 ∨ rank = 0) := by push_neg; exact ⟨by omega, hrank⟩
    simp [semiCkptOnEpochEnd, hg]

/-- Witness for the amended C2 at concrete world size 2, rank 1. -/
theorem rank_zero_guard_witness :
    logPrinterOnStepEnd 2 1 [0] "eval" 0 1 = 0 ∧
    logPrinterOnEpochEnd 2 1 "eval" = 0 ∧
    checkpointerOnEpochEnd ⟨1, 1, none, "output", false, false⟩ 2 1 0
      [MapRes.dict [("bbox", [1])]] ⟨"eval", 0, true, false⟩ = ⟨0, emptyCkptEffects, none⟩ ∧
    visualDLOnStepEnd ⟨2, 1, "test", 0⟩ vdlInit = (vdlInit, 0) ∧
    visualDLOnEpochEnd 2 1 "eval" [MapRes.dict [("bbox", [1])]] 0 = (0, 0, none) ∧
    wandbOnStepEnd 2 1 "train" = 0 ∧
    wandbOnEpochEnd 2 1 1 1 "eval" 0 1 true [MapRes.dict [("bbox", [1])]] 0 =
      ⟨0, 0, 0, 0, none⟩ ∧
    semiCkptOnStepEnd 2 1 "output" ⟨"train", 1, 1, 0, 0, true⟩ = [] ∧
    semiCkptOnEpochEnd 2 1 "output" 0 [MapRes.dict [("bbox", [1])]]
      ⟨"eval", 1, 1, 0, 0, true⟩ = ⟨0, ⟨[], 0, []⟩, none⟩ :=
  ⟨rank_zero_guard.1 2 1 [0] "eval" 0 1 (by norm_num) (by decide),
   rank_zero_guard.2.1 2 1 "eval" (by norm_num) (by decide),
   rank_zero_guard.2.2.1 _ 2 1 0 _ _ (by norm_num) (by decide),
   rank_zero_guard.2.2.2.1 ⟨2, 1, "test", 0⟩ vdlInit (by norm_num) (by decide),
   rank_zero_guard.2.2.2.2.1 2 1 "eval" _ 0 (by norm_num) (by decide),
   rank_zero_guard.2.2.2.2.2.1 2 1 "train" (by norm_num) (by decide),
   rank_zero_guard.2.2.2.2.2.2.1 2 1 1 1 "eval" 0 1 true _ 0 (by norm_num) (by decide),
   rank_zero_guard.2.2.2.2.2.2.2.1 2 1 "output" _ (by norm_num) (by decide),
   rank_zero_guard.2.2.2.2.2.2.2.2 2 1 "output" 0 _ _ (by norm_num) (by decide)⟩

theorem ckptSaveWeight_save_models_map (cfg : CkptCfg) (st : CkptStatus)
    (sn : String) (eff : CkptEffects) :
    (ckptSaveWeight cfg st sn eff).save_models.map (fun x => x.2.1) =
      eff.save_models.map (fun x => x.2.1) ++ [sn] := by
  unfold ckptSaveWeight
  repeat' split
  all_goals simp

/-- C3: in `'train'` mode (on the rank allowed to save, with a positive
`snapshot_epoch`) `Checkpointer.on_epoch_end` calls `save_model` exactly
when `epoch_id + 1` is a multiple of `cfg.snapshot_epoch` or `epoch_id`
equals `cfg.epoch - 1`, and the save name it passes is `str(epoch_id)`
except for the final epoch, where it is `"model_final"`. -/
theorem checkpointer_train_save_name (cfg : CkptCfg) (ws rank : ℕ) (b : ℚ)
    (metrics : List MapRes) (st : CkptStatus)
    (hmode : st.mode = "train") (hguard : ws < 2 ∨ rank = 0)
    (_hsnap : 0 < cfg.snapshot_epoch) :
    ((checkpointerOnEpochEnd cfg ws rank b metrics st).effects.save_models.map
        (fun x => x.2.1)) =
      if cfg.snapshot_epoch ∣ (st.epoch_id + 1) ∨ st.epoch_id = cfg.epoch - 1 then
        [if st.epoch_id = cfg.epoch - 1 then "model_final" else toString st.epoch_id]
      else [] := by
  unfold checkpointerOnEpochEnd
  rw [if_pos hguard]
  have hm : (st.mode == "train") = true := by simp [hmode]
  dsimp only
  rw [if_pos hm]
  by_cases hc : ((st.epoch_id + 1) % cfg.snapshot_epoch == 0) = true ∨
      st.epoch_id = cfg.epoch - 1
  · have hc' : cfg.snapshot_epoch ∣ (st.epoch_id + 1) ∨ st.epoch_id = cfg.epoch - 1 := by
      rcases hc with h | h
      · exact Or.inl (Int.dvd_iff_emod_eq_zero.mpr (by simpa using h))
      · exact Or.inr h
    rw [if_pos hc, if_pos hc']
    rw [ckptSaveWeight_save_models_map]
    by_cases hlast : st.epoch_id = cfg.epoch - 1 <;>
      simp [hlast, emptyCkptEffects]
  · have hc' : ¬ (cfg.snapshot_epoch ∣ (st.epoch_id + 1) ∨ st.epoch_id = cfg.epoch - 1) := by
      intro h
      apply hc
      rcases h with h | h
      · exact Or.inl (by simpa using Int.dvd_iff_emod_eq_zero.mp h)
      · exact Or.inr h
    rw [if_neg hc, if_neg hc']
    simp [emptyCkptEffects]

/-- Witness for C3: epoch 1 of 3 with `snapshot_epoch = 2` saves under the
name `str(1)`. -/
theorem checkpointer_train_save_name_witness :
    ((checkpointerOnEpochEnd ⟨3, 2, none, "output", false, false⟩ 1 0 0 []
        ⟨"train", 1, false, false⟩).effects.save_models.map (fun x => x.2.1)) =
      [toString (1 : ℤ)] := by
  have h := checkpointer_train_save_name ⟨3, 2, none, "output", false, false⟩ 1 0 0 []
    ⟨"train", 1, false, false⟩ rfl (Or.inl (by norm_num)) (by norm_num)
  rw [if_pos (Or.inl ⟨1, by norm_num⟩)] at h
  rw [if_neg (show ¬ (1 : ℤ) = 3 - 1 by norm_num)] at h
  exact h

/-- C4: `SemiCheckpointer.__init__` raises `AttributeError` exactly when the
wrapped model lacks `student` or `teacher` (one or both), and with both
present it completes normally with `self.weight = (teacher, student)`. -/
theorem semi_init_attribute_error (α : Type) (m : SemiModel α) :
    ((∃ e, semiCheckpointerInitWeight m = .error e) ↔
      ¬ (m.student.isSome ∧ m.teacher.isSome)) ∧
    (∀ s t, m.student = some s → m.teacher = some t →
      semiCheckpointerInitWeight m = .ok (t, s)) := by
  constructor
  · unfold semiCheckpointerInitWeight
    split
    · rename_i h
      simp [h]
    · rename_i h
      split <;> simp [h]
  · intro s t hs ht
    unfold semiCheckpointerInitWeight
    rw [dif_pos (by simp [hs, ht])]
    simp [hs, ht]

/-- Witness for C4: both attributes present gives the (teacher, student)
pair; a missing teacher gives an `AttributeError`. -/
theorem semi_init_attribute_error_witness :
    semiCheckpointerInitWeight (⟨some 1, some 2⟩ : SemiModel ℕ) = .ok (2, 1) ∧
    (∃ e, semiCheckpointerInitWeight (⟨some 1, none⟩ : SemiModel ℕ) = .error e) :=
  ⟨(semi_init_attribute_error ℕ ⟨some 1, some 2⟩).2 1 2 rfl rfl,
   (semi_init_attribute_error ℕ ⟨some 1, none⟩).1.mpr (by simp)⟩

/- ----------------------------------------------------------------
   ComposeCallback lemmas
   ---------------------------------------------------------------- -/

theorem composeRunAux_all_ok {StatusT ε : Type} (s : StatusT) :
    ∀ (hooks : List (StatusT → Except ε Unit)) (i : ℕ),
      (∀ h ∈ hooks, h s = .ok ()) →
      composeRunAux s i hooks = (List.range' i hooks.length, none) := by
  intro hooks
  induction hooks with
  | nil => intro i _; rfl
  | cons h t ih =>
    intro i hok
    have hh : h s = .ok () := hok h (List.mem_cons_self h t)
    have ht : ∀ g ∈ t, g s = .ok () := fun g hg => hok g (List.mem_cons_of_mem h hg)
    simp [composeRunAux, hh, ih (i + 1) ht, List.range']

theorem composeRunAux_error {StatusT ε : Type} (s : StatusT) :
    ∀ (pre : List (StatusT → Except ε Unit)) (hfail : StatusT → Except ε Unit)
      (post : List (StatusT → Except ε Unit)) (e : ε) (i : ℕ),
      (∀ g ∈ pre, g s = .ok ()) → hfail s = .error e →
      composeRunAux s i (pre ++ hfail :: post) = (List.range' i (pre.length + 1), some e) := by
  intro pre
  induction pre with
  | nil =>
    intro hfail post e i _ hf
    simp [composeRunAux, hf, List.range']
  | cons g t ih =>
    intro hfail post e i hok hf
    have hg : g s = .ok () := hok g (List.mem_cons_self g t)
    have ht : ∀ g' ∈ t, g' s = .ok () := fun g' hg' => hok g' (List.mem_cons_of_mem g hg')
    simp [composeRunAux, hg, ih hfail post e (i + 1) ht hf, List.range']

/-- C6: a `ComposeCallback` hook invokes the stored callbacks' hooks in
list order; if every callback returns normally all of them are invoked,
and if one raises, the exception propagates unchanged and the callbacks
after it are not invoked. -/
theorem compose_callback_no_recovery (StatusT ε : Type) (s : StatusT) :
    (∀ (hooks : List (StatusT → Except ε Unit)),
      (∀ h ∈ hooks, h s = .ok ()) →
      composeHook hooks s = (List.range hooks.length, none)) ∧
    (∀ (pre : List (StatusT → Except ε Unit)) (hfail : StatusT → Except ε Unit)
       (post : List (StatusT → Except ε Unit)) (e : ε),
      (∀ g ∈ pre, g s = .ok ()) → hfail s = .error e →
      composeHook (pre ++ hfail :: post) s = (List.range (pre.length + 1), some e)) := by
  constructor
  · intro hooks hok
    rw [List.range_eq_range']
    exact composeRunAux_all_ok s hooks 0 hok
  · intro pre hfail post e hok hf
    rw [List.range_eq_range']
    exact composeRunAux_error s pre hfail post e 0 hok hf

/-- Witness for C6: of three callbacks whose middle one raises, exactly the
first two are invoked and the error comes out unchanged. -/
theorem compose_callback_no_recovery_witness :
    composeHook [fun _ => Except.ok (), fun _ => Except.error "boom",
      fun _ => Except.ok ()] (0 : ℕ) = (List.range 2, some "boom") :=
  (compose_callback_no_recovery ℕ String 0).2 [fun _ => Except.ok ()]
    (fun _ => Except.error "boom") [fun _ => Except.ok ()] "boom"
    (by intro g hg; simp at hg; subst hg; rfl) rfl

/- ----------------------------------------------------------------
   VisualDL image-step invariant
   ---------------------------------------------------------------- -/

theorem visualDLOnStepEnd_step_le (inp : VDLStepIn) (s : VDLState)
    (hs : s.vdl_image_step ≤ 9) :
    (visualDLOnStepEnd inp s).1.vdl_image_step ≤ 9 := by
  unfold visualDLOnStepEnd
  split
  · dsimp only
    split
    · simpa using hs
    · split
      · split
        · simp
        · rename_i hmod
          dsimp only
          omega
      · simpa using hs
  · simpa using hs

theorem vdlFold_step_le :
    ∀ (calls : List VDLStepIn) (s : VDLState), s.vdl_image_step ≤ 9 →
      (calls.foldl (fun s inp => (visualDLOnStepEnd inp s).1) s).vdl_image_step ≤ 9 := by
  intro calls
  induction calls with
  | nil => intro s hs; exact hs
  | cons inp t ih =>
    intro s hs
    exact ih _ (visualDLOnStepEnd_step_le inp s hs)

/-- C9: starting from a fresh writer, `vdl_image_step` stays within 0..9
after every sequence of `on_step_end` calls; a `'test'`-mode call on the
writing rank increments it, except that on reaching 10 it is reset to 0
and `vdl_image_frame` is incremented — so each frame receives at most ten
image pairs. -/
theorem vdl_image_step_bounded :
    (∀ (calls : List VDLStepIn), (vdlRun calls).vdl_image_step ≤ 9) ∧
    (∀ (inp : VDLStepIn) (s : VDLState), s.vdl_image_step ≤ 9 →
      inp.mode = "test" → (inp.ws < 2 ∨ inp.rank = 0) →
      (visualDLOnStepEnd inp s).1.vdl_image_step =
        (if s.vdl_image_step = 9 then 0 else s.vdl_image_step + 1) ∧
      (visualDLOnStepEnd inp s).1.vdl_image_frame =
        (if s.vdl_image_step = 9 then s.vdl_image_frame + 1 else s.vdl_image_frame)) := by
  constructor
  · intro calls
    exact vdlFold_step_le calls vdlInit (by simp [vdlInit])
  · intro inp s hs hmode hguard
    have hm1 : (inp.mode == "train") = false := by simp [hmode]
    have hm2 : (inp.mode == "test") = true := by simp [hmode]
    unfold visualDLOnStepEnd
    rw [if_pos hguard]
    dsimp only
    rw [if_neg (by simp [hm1]), if_pos hm2]
    by_cases h10 : (s.vdl_image_step + 1) % 10 = 0
    · have h9 : s.vdl_image_step = 9 := by omega
      simp [h10, h9]
    · have h9 : ¬ s.vdl_image_step = 9 := by omega
      simp [h10, h9]

/-- Witness for C9: a test-mode call at `vdl_image_step = 9` resets the
step to 0 and advances the frame. -/
theorem vdl_image_step_bounded_witness :
    (visualDLOnStepEnd ⟨1, 0, "test", 0⟩ ⟨0, 0, 9, 3⟩).1.vdl_image_step =
      (if (9 : ℕ) = 9 then 0 else 9 + 1) ∧
    (visualDLOnStepEnd ⟨1, 0, "test", 0⟩ ⟨0, 0, 9, 3⟩).1.vdl_image_frame =
      (if (9 : ℕ) = 9 then 3 + 1 else 3) :=
  vdl_image_step_bounded.2 ⟨1, 0, "test", 0⟩ ⟨0, 0, 9, 3⟩ (by norm_num) rfl
    (Or.inl (by norm_num))

/- ----------------------------------------------------------------
   Empty-results handling in the checkpointer
   ---------------------------------------------------------------- -/

theorem ckptSaveWeight_warnings (cfg : CkptCfg) (st : CkptStatus) (sn : String)
    (eff : CkptEffects) : (ckptSaveWeight cfg st sn eff).warnings = eff.warnings := by
  unfold ckptSaveWeight
  repeat' split
  all_goals simp

theorem ckptSaveWeight_pdstates (cfg : CkptCfg) (st : CkptStatus) (sn : String)
    (eff : CkptEffects) : (ckptSaveWeight cfg st sn eff).pdstates = eff.pdstates := by
  unfold ckptSaveWeight
  repeat' split
  all_goals simp

/-- C5: when the target metric key is absent from a metric's (non-MOT)
results, `Checkpointer.on_epoch_end` in `'eval'` mode logs the
empty-results warning, records a metric value of 0.0, still writes the
epoch's `.pdstates` file, and raises no exception. -/
theorem checkpointer_empty_results_warning (cfg : CkptCfg) (ws rank : ℕ) (b : ℚ)
    (d : List (String × List ℚ)) (st : CkptStatus)
    (hmode : st.mode = "eval") (hguard : ws < 2 ∨ rank = 0)
    (hmota : mapResContains (.dict d) "MOTA" = false)
    (hkey : mapResContains (.dict d)
        (cfg.target_metrics.getD
          (if mapResContains (.dict d) "pose3d" then "pose3d"
           else if mapResContains (.dict d) "bbox" then "bbox"
           else if mapResContains (.dict d) "keypoint" then "keypoint"
           else "mask")) = false) :
    (checkpointerOnEpochEnd cfg ws rank b [.dict d] st).error = none ∧
    (checkpointerOnEpochEnd cfg ws rank b [.dict d] st).effects.warnings =
      [evalEmptyWarning] ∧
    (checkpointerOnEpochEnd cfg ws rank b [.dict d] st).effects.pdstates.head? = some
      (ckptStatesPath cfg.uniform_output_enabled cfg.save_dir
        (if st.epoch_id ≠ cfg.epoch - 1 then toString st.epoch_id else "model_final")
        ((if st.epoch_id ≠ cfg.epoch - 1 then toString st.epoch_id else "model_final")
          ++ ".pdstates"),
       0, st.epoch_id + 1) := by
  have hka : ckptKeyAp cfg.target_metrics (MapRes.dict d) =
      .ok ("", if mapResContains (MapRes.dict d) "pose3d" then "mpjpe" else "ap", 0, true) := by
    unfold ckptKeyAp
    rw [if_neg (by simp [hmota])]
    dsimp only
    rw [if_neg (by simp [hkey])]
  have hstep : ∀ (sn : String),
      ((ckptEvalMetric cfg st ⟨b, sn, false, emptyCkptEffects, none⟩ (MapRes.dict d)).error
        = none) ∧
      ((ckptEvalMetric cfg st ⟨b, sn, false, emptyCkptEffects, none⟩ (MapRes.dict d)).eff.warnings
        = [evalEmptyWarning]) ∧
      ((ckptEvalMetric cfg st ⟨b, sn, false, emptyCkptEffects, none⟩
          (MapRes.dict d)).eff.pdstates.head? =
        some (ckptStatesPath cfg.uniform_output_enabled cfg.save_dir sn (sn ++ ".pdstates"),
          0, st.epoch_id + 1)) := by
    intro sn
    refine ⟨?_, ?_, ?_⟩ <;>
    · unfold ckptEvalMetric
      rw [hka]
      dsimp only
      repeat' split
      all_goals simp_all [emptyCkptEffects]
  have hm1 : (st.mode == "train") = false := by simp [hmode]
  have hm2 : (st.mode == "eval") = true := by simp [hmode]
  refine ⟨?_, ?_, ?_⟩ <;>
  · unfold checkpointerOnEpochEnd
    rw [if_pos hguard]
    dsimp only
    rw [if_neg (by simp [hm1]), if_pos hm2]
    generalize (if st.epoch_id ≠ cfg.epoch - 1 then toString st.epoch_id else "model_final") = sn
    simp only [List.foldl_cons, List.foldl_nil]
    rw [(hstep sn).1]
    dsimp only
    split
    all_goals first
      | rfl
      | exact (hstep sn).2.1
      | exact (hstep sn).2.2
      | (rw [ckptSaveWeight_warnings]; exact (hstep sn).2.1)
      | (rw [ckptSaveWeight_pdstates]; exact (hstep sn).2.2)

/-- Witness for C5: one metric with an empty results dictionary. -/
theorem checkpointer_empty_results_warning_witness :
    (checkpointerOnEpochEnd ⟨1, 1, none, "output", false, false⟩ 1 0 0
      [MapRes.dict []] ⟨"eval", 0, true, false⟩).error = none ∧
    (checkpointerOnEpochEnd ⟨1, 1, none, "output", false, false⟩ 1 0 0
      [MapRes.dict []] ⟨"eval", 0, true, false⟩).effects.warnings = [evalEmptyWarning] ∧
    (checkpointerOnEpochEnd ⟨1, 1, none, "output", false, false⟩ 1 0 0
      [MapRes.dict []] ⟨"eval", 0, true, false⟩).effects.pdstates.head? =
      some ("output/model_final.pdstates", 0, (0 : ℤ) + 1) := by
  have h := checkpointer_empty_results_warning ⟨1, 1, none, "output", false, false⟩ 1 0 0 []
    ⟨"eval", 0, true, false⟩ rfl (Or.inl (by norm_num)) (by decide) (by decide)
  refine ⟨h.1, h.2.1, ?_⟩
  have h3 := h.2.2
  rw [if_neg (show ¬ ((0 : ℤ) ≠ 1 - 1) by norm_num)] at h3
  rw [show ckptStatesPath false "output" "model_final" ("model_final" ++ ".pdstates") =
    "output/model_final.pdstates" from by decide] at h3
  exact h3
